import Mathlib

set_option maxRecDepth 100000

/-!
Verification development for the agent execution engine in `src/agent/agents.py`
(SRSA repository).  The definitions below are a shallow embedding of the
Python source: runtime values become the `Obj` universe, the step log becomes
`LogEntry`, the action parsers (`parse_json_blob`, `parse_json_tool_call`,
`parse_code_blob`, `parse_text_tool_call`), the tool executor
(`Agent.execute_tool_call`), the memory builder
(`Agent.write_inner_memory_from_logs`), the ReAct step
(`ReactJsonAgent.step`) and the run loop (`ReactAgent.direct_run`) become
executable Lean functions.  External collaborators (the LLM engine, the
tools) are modelled as oracle values / functions supplied as arguments.
-/

namespace Agents

/-- Python runtime values that flow through the engine: JSON-decoded data
(`ostr`/`onum`/`obool`/`onone`/`olist`/`odict`), the agent media types
(`otext` = AgentText, a `str` subclass; `oimage` = AgentImage;
`oaudio` = AgentAudio) and other opaque objects (`oother`).  Dictionaries
are association lists with string keys (JSON object keys are strings). -/
inductive Obj where
  | ostr (s : String)
  | onum (n : Int)
  | obool (b : Bool)
  | onone
  | olist (xs : List Obj)
  | odict (kvs : List (String × Obj))
  | otext (s : String)
  | oimage (n : Nat)
  | oaudio (n : Nat)
  | oother (n : Nat)

/-- Message roles exchanged with the LLM engine (`MessageRole`). -/
inductive Role where
  | system
  | user
  | assistant
  | toolResponse
  deriving DecidableEq

/-- A chat message `{role, content}`. -/
structure Message where
  role : Role
  content : String
  deriving DecidableEq

/-- Kinds of the `AgentError` hierarchy. -/
inductive ErrKind where
  | parsing
  | execution
  | maxIterations
  | generation
  deriving DecidableEq

/-- An `AgentError`: a kind (the subclass) plus the message carried by the
exception (Python `str(e)` yields exactly this message). -/
structure AgentErrorE where
  kind : ErrKind
  message : String
  deriving DecidableEq

/-- The tool-call record stored under the `tool_call` key of a log entry:
`{"tool_name": tool_name, "tool_arguments": arguments}`. -/
structure ToolCallRec where
  tool_name : Obj
  tool_arguments : Obj

/-- One entry of `self.logs`.  Python log entries are dictionaries with
optional keys; each key becomes an `Option` field (`none` = key absent).
`agent_memory` stores the memory snapshot taken at the start of a step. -/
structure LogEntry where
  system_prompt : Option String := none
  task : Option String := none
  llm_output : Option String := none
  rationale : Option String := none
  tool_call : Option ToolCallRec := none
  observation : Option String := none
  error : Option AgentErrorE := none
  final_answer : Option Obj := none
  plan : Option String := none
  facts : Option String := none
  agent_memory : Option (List Message) := none

/-- The empty log-entry dictionary `{}`. -/
def emptyEntry : LogEntry := {}

/- ### Python string primitives -/

/-- The apostrophe character (used when rendering Python `repr` strings). -/
def qChar : Char := Char.ofNat 39

/-- Python whitespace as stripped by `str.strip()`. -/
def isPyWs (c : Char) : Bool :=
  c == ' ' || c == '\t' || c == '\n' || c == '\r' ||
  c == Char.ofNat 11 || c == Char.ofNat 12

/-- Python `str.strip()` on a character list. -/
def pyStripL (cs : List Char) : List Char :=
  ((cs.dropWhile isPyWs).reverse.dropWhile isPyWs).reverse

/-- Python `str.strip()`. -/
def pyStrip (s : String) : String :=
  ⟨pyStripL s.data⟩

/-- Does the pattern occur anywhere in the list? -/
def containsLAux (pat : List Char) : List Char → Bool
  | [] => pat.isEmpty
  | c :: rest => pat.isPrefixOf (c :: rest) || containsLAux pat rest

/-- Python substring membership `sub in s`. -/
def pyIn (sub s : String) : Bool :=
  containsLAux sub.data s.data

/-- Worker for Python `str.split(sep)`: scan left to right, cutting at each
non-overlapping occurrence of the separator (the fuel is an upper bound on
the input length, so the recursion is structural and computes
definitionally). -/
def splitOnLAux (sep : List Char) : Nat → List Char → List Char →
    List (List Char)
  | _, [], acc => [acc.reverse]
  | 0, cs, acc => [acc.reverse ++ cs]
  | fuel + 1, c :: rest, acc =>
    if sep.isPrefixOf (c :: rest) then
      acc.reverse :: splitOnLAux sep fuel ((c :: rest).drop sep.length) []
    else
      splitOnLAux sep fuel rest (c :: acc)

/-- Python `s.split(sep)` for a nonempty separator: every part, empties
included. -/
def pySplitOn (s sep : String) : List String :=
  (splitOnLAux sep.data (s.data.length + 1) s.data []).map String.mk

/-- Worker for Python `str.replace`. -/
def replaceLAux (pat rep : List Char) : Nat → List Char → List Char
  | _, [] => []
  | 0, cs => cs
  | fuel + 1, c :: rest =>
    if pat.isPrefixOf (c :: rest) then
      rep ++ replaceLAux pat rep fuel ((c :: rest).drop pat.length)
    else
      c :: replaceLAux pat rep fuel rest

/-- Python `s.replace(pat, rep)` (every pattern used in the source is
nonempty). -/
def pyReplace (s pat rep : String) : String :=
  if pat.data.isEmpty then s
  else ⟨replaceLAux pat.data rep.data (s.data.length + 1) s.data⟩

/-- Comma-space join (Python list rendering inside f-strings). -/
def joinComma : List String → String
  | [] => ""
  | [x] => x
  | x :: y :: rest => x ++ ", " ++ joinComma (y :: rest)

/-- Association-list lookup, mirroring Python `dict` indexing (the JSON
decoder keeps the last binding of a duplicated key, and our builder below
inserts with replacement, so keys are unique). -/
def alistLookup (kvs : List (String × Obj)) (k : String) : Option Obj :=
  match kvs with
  | [] => none
  | (k', v) :: rest => if k' = k then some v else alistLookup rest k

/-- Insert with replacement (Python `d[k] = v`). -/
def alistInsert (kvs : List (String × Obj)) (k : String) (v : Obj) :
    List (String × Obj) :=
  match kvs with
  | [] => [(k, v)]
  | (k', v') :: rest =>
    if k' = k then (k', v) :: rest else (k', v') :: alistInsert rest k v

/-- Python `isinstance(x, str)`: plain strings and `AgentText` (a `str`
subclass). -/
def pyStrVal : Obj → Option String
  | .ostr s => some s
  | .otext s => some s
  | _ => none

/-- Python type name of a value (used in attribute-error messages). -/
def pyTypeName : Obj → String
  | .ostr _ => "str"
  | .onum _ => "int"
  | .obool _ => "bool"
  | .onone => "NoneType"
  | .olist _ => "list"
  | .odict _ => "dict"
  | .otext _ => "AgentText"
  | .oimage _ => "AgentImage"
  | .oaudio _ => "AgentAudio"
  | .oother _ => "object"

mutual

/-- Python `repr` of a value (escape sequences inside strings are not
re-escaped; no claim depends on `repr` of a string containing quotes). -/
def pyRepr : Obj → String
  | .ostr s => String.mk (qChar :: (s.data ++ [qChar]))
  | .otext s => String.mk (qChar :: (s.data ++ [qChar]))
  | .onum n => toString n
  | .obool b => if b then "True" else "False"
  | .onone => "None"
  | .olist xs => "[" ++ pyReprList xs ++ "]"
  | .odict kvs => "\x7b" ++ pyReprDict kvs ++ "\x7d"
  | .oimage n => "<AgentImage " ++ toString n ++ ">"
  | .oaudio n => "<AgentAudio " ++ toString n ++ ">"
  | .oother n => "<object " ++ toString n ++ ">"

/-- Comma-separated `repr` of list elements. -/
def pyReprList : List Obj → String
  | [] => ""
  | [x] => pyRepr x
  | x :: y :: rest => pyRepr x ++ ", " ++ pyReprList (y :: rest)

/-- Comma-separated `repr` of dict items. -/
def pyReprDict : List (String × Obj) → String
  | [] => ""
  | [(k, v)] => String.mk (qChar :: (k.data ++ [qChar])) ++ ": " ++ pyRepr v
  | (k, v) :: p :: rest =>
    String.mk (qChar :: (k.data ++ [qChar])) ++ ": " ++ pyRepr v ++ ", " ++
      pyReprDict (p :: rest)

end

/-- Python `str(x)`: identity on strings, `repr`-like on containers. -/
def pyStr (x : Obj) : String :=
  match x with
  | .ostr s => s
  | .otext s => s
  | _ => pyRepr x

/-- The opening-brace character (written via its code so that source string
literals stay brace-free). -/
def lbrace : Char := Char.ofNat 123

/-- The closing-brace character. -/
def rbrace : Char := Char.ofNat 125

/- ### A model of `json.loads` (Python standard library, `strict=False`)

The decoder is external to the repository; it is modelled here as a
recursive-descent parser over the JSON fragment the engine exercises:
objects, arrays, strings (with the common escapes), integers, booleans and
null.  Floats and `\uXXXX` escapes are not modelled (no claim involves
them); duplicate object keys keep the last value, as in CPython. -/

/-- JSON whitespace skipped between tokens. -/
def isJsonWs (c : Char) : Bool :=
  c == ' ' || c == '\t' || c == '\n' || c == '\r'

/-- Skip JSON whitespace. -/
def skipJsonWs (cs : List Char) : List Char :=
  cs.dropWhile isJsonWs

/-- Decode a single string escape character. -/
def jsonEscChar (c : Char) : Option Char :=
  if c = 'n' then some '\n'
  else if c = 't' then some '\t'
  else if c = 'r' then some '\r'
  else if c = 'b' then some (Char.ofNat 8)
  else if c = 'f' then some (Char.ofNat 12)
  else if c = '"' then some '"'
  else if c = '\\' then some '\\'
  else if c = '/' then some '/'
  else none

/-- Parse the body of a JSON string after the opening quote; returns the
decoded string and the remaining input (`strict=False` lets control
characters through unchanged). -/
def parseJsonStrBody : List Char → List Char → Option (String × List Char)
  | [], _ => none
  | c :: rest, acc =>
    if c = '"' then some (⟨acc.reverse⟩, rest)
    else if c = '\\' then
      match rest with
      | [] => none
      | e :: rest2 =>
        match jsonEscChar e with
        | some d => parseJsonStrBody rest2 (d :: acc)
        | none => none
    else parseJsonStrBody rest (c :: acc)

/-- Digits to a natural number. -/
def digitsToNat (ds : List Char) : Nat :=
  ds.foldl (fun a c => a * 10 + (c.toNat - 48)) 0

/-- Detect a float continuation after an integer literal (unmodelled). -/
def floatFollows : List Char → Bool
  | c :: _ => c == '.' || c == 'e' || c == 'E'
  | [] => false

/-- The three JSON sub-parsers at a given fuel level: values, object bodies
(after the opening brace, accumulating decoded pairs) and array bodies. -/
structure JsonParsers where
  val : List Char → Option (Obj × List Char)
  obj : List Char → List (String × Obj) → Option (Obj × List Char)
  arr : List Char → List Obj → Option (Obj × List Char)

/-- Fuel-indexed JSON parsers (structural recursion on the fuel so concrete
inputs evaluate definitionally). -/
def jsonParsersAt : Nat → JsonParsers
  | 0 => ⟨fun _ => none, fun _ _ => none, fun _ _ => none⟩
  | fuel + 1 =>
    let p := jsonParsersAt fuel
    { val := fun cs =>
        match skipJsonWs cs with
        | [] => none
        | c :: rest =>
          if c = '"' then
            (parseJsonStrBody rest []).map (fun r => (Obj.ostr r.1, r.2))
          else if c = lbrace then p.obj rest []
          else if c = '[' then p.arr rest []
          else if c = 't' then
            if rest.take 3 = ['r', 'u', 'e'] then some (.obool true, rest.drop 3)
            else none
          else if c = 'f' then
            if rest.take 4 = ['a', 'l', 's', 'e'] then
              some (.obool false, rest.drop 4)
            else none
          else if c = 'n' then
            if rest.take 3 = ['u', 'l', 'l'] then some (.onone, rest.drop 3)
            else none
          else if c = '-' then
            let ds := rest.takeWhile Char.isDigit
            let rest2 := rest.dropWhile Char.isDigit
            if ds.isEmpty || floatFollows rest2 then none
            else some (.onum (-(digitsToNat ds : Int)), rest2)
          else if c.isDigit then
            let ds := (c :: rest).takeWhile Char.isDigit
            let rest2 := (c :: rest).dropWhile Char.isDigit
            if floatFollows rest2 then none
            else some (.onum (digitsToNat ds : Int), rest2)
          else none,
      obj := fun cs acc =>
        match skipJsonWs cs with
        | [] => none
        | c :: rest =>
          if c = rbrace then
            if acc.isEmpty then some (.odict [], rest) else none
          else if c = '"' then
            match parseJsonStrBody rest [] with
            | none => none
            | some (k, r1) =>
              match skipJsonWs r1 with
              | ':' :: r2 =>
                match p.val r2 with
                | none => none
                | some (v, r3) =>
                  match skipJsonWs r3 with
                  | ',' :: r4 => p.obj r4 (alistInsert acc k v)
                  | d :: r4 =>
                    if d = rbrace then some (.odict (alistInsert acc k v), r4)
                    else none
                  | [] => none
              | _ => none
          else none,
      arr := fun cs acc =>
        match skipJsonWs cs with
        | [] => none
        | c :: rest =>
          if c = ']' then
            if acc.isEmpty then some (.olist [], rest) else none
          else
            match p.val (c :: rest) with
            | none => none
            | some (v, r1) =>
              match skipJsonWs r1 with
              | ',' :: r2 => p.arr r2 (acc ++ [v])
              | ']' :: r2 => some (.olist (acc ++ [v]), r2)
              | _ => none }

/-- `json.loads` on a character list: parse one value and require only
whitespace to remain. -/
def jsonLoads (cs : List Char) : Option Obj :=
  match (jsonParsersAt (2 * cs.length + 2)).val cs with
  | some (v, rest) => if (skipJsonWs rest).isEmpty then some v else none
  | none => none

/- ### Action parsers (`agents.py` lines 91-162) -/

/-- Python `s.find(c)`: index of the first occurrence or `-1`. -/
def pyFindChar (cs : List Char) (c : Char) : Int :=
  match cs.findIdx? (· == c) with
  | some i => (i : Int)
  | none => -1

/-- Index of the last occurrence of a character
(`[a.start() for a in re.finditer(c, s)][-1]`). -/
def lastIdxOfChar (cs : List Char) (c : Char) : Option Nat :=
  (cs.enum.filterMap (fun p => if p.2 == c then some p.1 else none)).getLast?

/-- Normalize a Python slice index (negative indices count from the end,
out-of-range indices clamp). -/
def pySliceIdx (len : Nat) (i : Int) : Nat :=
  if i < 0 then ((len : Int) + i).toNat else min i.toNat len

/-- Python slice `cs[a:b]`. -/
def pySlice (cs : List Char) (a b : Int) : List Char :=
  (cs.take (pySliceIdx cs.length b)).drop (pySliceIdx cs.length a)

/-- `.replace(backslash-quote, apostrophe)` from `parse_json_blob`. -/
def replaceEscQuote : List Char → List Char
  | [] => []
  | [c] => [c]
  | a :: b :: rest =>
    if a = '\\' && b = '"' then qChar :: replaceEscQuote rest
    else a :: replaceEscQuote (b :: rest)

/-- Failures of `parse_json_blob`.  `decode` is the `json.JSONDecodeError`
branch (the two diagnostic texts of the source, including the
multiple-tool-call hint, are collapsed: no claim distinguishes them);
`indexErr` is the `IndexError` raised when the text has no closing brace,
caught by the generic `except` branch. -/
inductive JsonErr where
  | decode (blob : String)
  | indexErr
  deriving DecidableEq

/-- `parse_json_blob` (lines 91-110): locate the first opening brace and the
last closing brace, slice, normalize escaped quotes to apostrophes, decode. -/
def parse_json_blob (json_blob : String) : Except JsonErr Obj :=
  let cs := json_blob.data
  match lastIdxOfChar cs rbrace with
  | none => .error .indexErr
  | some last =>
    let first := pyFindChar cs lbrace
    let sliced := replaceEscQuote (pySlice cs first ((last : Int) + 1))
    match jsonLoads sliced with
    | some v => .ok v
    | none => .error (.decode ⟨sliced⟩)

/-- Python `in` on a decoded JSON value: key membership for dicts, element
membership for lists, substring for strings.  Other operands would raise
`TypeError` in Python; they are unreachable because `parse_json_blob`
successes always start at an opening brace and hence decode to dicts. -/
def pyHasKey (x : Obj) (k : String) : Bool :=
  match x with
  | .odict kvs => (alistLookup kvs k).isSome
  | .olist xs => xs.any (fun v => pyStrVal v == some k)
  | .ostr s => pyIn k s
  | .otext s => pyIn k s
  | _ => false

/-- Dict indexing `x[k]` (guarded by `pyHasKey` at every use site). -/
def pyGetKey (x : Obj) (k : String) : Obj :=
  match x with
  | .odict kvs => (alistLookup kvs k).getD .onone
  | _ => .onone

/-- Failures of `parse_json_tool_call`: a propagated `parse_json_blob`
failure, or the missing-keys `ValueError`, carrying the computed list
`[key for key in [action, action_input] if key not in tool_call]`. -/
inductive ToolCallErr where
  | fromJson (e : JsonErr)
  | missingKeys (missing : List String) (blob : Obj)

/-- `parse_json_tool_call` (lines 131-141): strip code fences, decode the
blob, and require an `action` key; `action_input` defaults to `None`. -/
def parse_json_tool_call (json_blob : String) : Except ToolCallErr (Obj × Obj) :=
  let cleaned := pyReplace (pyReplace json_blob "```json" "") "```" ""
  match parse_json_blob cleaned with
  | .error e => .error (.fromJson e)
  | .ok tool_call =>
    if pyHasKey tool_call "action" && pyHasKey tool_call "action_input" then
      .ok (pyGetKey tool_call "action", pyGetKey tool_call "action_input")
    else if pyHasKey tool_call "action" then
      .ok (pyGetKey tool_call "action", .onone)
    else
      .error (.missingKeys
        ((["action", "action_input"].filter (fun k => !(pyHasKey tool_call k))))
        tool_call)

/-- Python `repr` of a string (quote with apostrophes). -/
def pyQuote (s : String) : String :=
  String.mk (qChar :: (s.data ++ [qChar]))

/-- First index at which a pattern occurs. -/
def firstMatchIdx (pat : List Char) : List Char → Option Nat
  | [] => if pat.isEmpty then some 0 else none
  | c :: rest =>
    if pat.isPrefixOf (c :: rest) then some 0
    else (firstMatchIdx pat rest).map (· + 1)

/-- The fence openings tried by the regex alternation, in backtracking
order: `py`, then `python`, then no language tag, each followed by a
newline. -/
def fenceAlts : List (List Char) :=
  ["```py\n".data, "```python\n".data, "```\n".data]

/-- The fence terminator (the regex's non-greedy group stops at the first
occurrence). -/
def fenceClose : List Char := "\n```".data

/-- Try to match the fenced-block regex at the current position. -/
def matchFenceAt (cs : List Char) : Option (List Char) :=
  fenceAlts.findSome? (fun pre =>
    if pre.isPrefixOf cs then
      let rest := cs.drop pre.length
      (firstMatchIdx fenceClose rest).map (fun i => rest.take i)
    else none)

/-- `re.search` of the fenced-block pattern: leftmost match. -/
def searchFence : List Char → Option (List Char)
  | [] => none
  | c :: rest =>
    match matchFenceAt (c :: rest) with
    | some r => some r
    | none => searchFence rest

/-- The fixed diagnostic produced when no fenced block matches: the caught
`AttributeError` and the regex pattern are interpolated, not the input. -/
def codeBlobErrMsg : String :=
  "\nThe code blob you used is invalid: due to the following error: " ++
  pyQuote "NoneType" ++ " object has no attribute " ++ pyQuote "group" ++
  "\nThis means that the regex pattern ```(?:py|python)?\\n(.*?)\\n``` " ++
  "was not respected: make sure to include code with the correct pattern, " ++
  "for instance:\nThoughts: Your thoughts\nCode:\n```py\n" ++
  "# Your python code here\n```<end_action>"

/-- `parse_code_blob` (lines 113-128): first fenced code block, stripped;
`ValueError` with a fixed diagnostic when the pattern does not match. -/
def parse_code_blob (code_blob : String) : Except String String :=
  match searchFence code_blob.data with
  | some inner => .ok ⟨pyStripL inner⟩
  | none => .error codeBlobErrMsg

/-- Failures of `parse_text_tool_call` (all re-raised as a single
`ValueError` whose message embeds the cause): the two-way unpack of
`text.split` on the input marker failed, or the nested `parse_json_blob`
raised. -/
inductive TextCallErr where
  | splitErr
  | jsonErr (e : JsonErr)

/-- Tool-name post-processing:
`tool_name.strip().replace(quote, empty).replace(backslash, empty)`. -/
def procToolName (s : String) : String :=
  pyReplace (pyReplace (pyStrip s) "\"" "") "\\" ""

/-- Drop everything after the first `Observation:` marker, if present. -/
def obsTrim (text : String) : String :=
  if pyIn "Observation:" text then (pySplitOn text "Observation:").headD ""
  else text

/-- Keep the part after the first `Action:` marker, if present. -/
def actionTrim (text : String) : String :=
  if pyIn "Action:" text then ((pySplitOn text "Action:").drop 1).headD ""
  else text

/-- `parse_text_tool_call` (lines 144-162): trim at `Observation:`, take the
text after `Action:`, split the remainder on `Action input:` into exactly a
tool name and an input, decoding the input as JSON when it contains an
opening brace and otherwise cleaning it as a literal string. -/
def parse_text_tool_call (text : String) : Except TextCallErr (String × Obj) :=
  let t2 := actionTrim (obsTrim text)
  match pySplitOn t2 "Action input:" with
  | [tool_name, tool_input] =>
    if pyIn "\x7b" tool_input then
      match parse_json_blob tool_input with
      | .ok v => .ok (procToolName tool_name, v)
      | .error e => .error (.jsonErr e)
    else
      .ok (procToolName tool_name, .ostr (pyReplace (pyStrip tool_input) "\"" ""))
  | _ => .error .splitErr

/-- `Agent.extract_action` (lines 465-484): split on the token and take the
last two parts; `AgentParsingError` when the token is absent. -/
def extract_action (llm_output : String) (split_token : String) :
    Except String (String × String) :=
  match (pySplitOn llm_output split_token).reverse with
  | action :: rationale :: _ => .ok (rationale, action)
  | _ => .error ("Error: No " ++ pyQuote split_token ++
      " token provided in your output.\nYour output:\n" ++ llm_output ++
      "\n. Be sure to include an action, prefaced with " ++
      pyQuote split_token ++ "!")

/- ### Tool executor (`Agent.execute_tool_call`, lines 486-514) -/

/-- How a tool's `forward` ends up being invoked: with one positional string
(`tool(arguments)` when the arguments are a plain string) or with keyword
arguments (`tool(**arguments)`). -/
inductive ToolArgs where
  | positional (s : String)
  | named (kvs : List (String × Obj))

/-- A tool in the toolbox: its rendered description
(`get_tool_description_with_args`) and its `forward` behaviour, an external
collaborator modelled as an oracle that returns a value or raises with a
message. -/
structure Tool where
  description : String
  run : ToolArgs → Except String Obj

/-- Tool lookup: Python `tool_name not in self.toolbox.tools` is dict-key
membership, which only a string tool name can satisfy. -/
def toolboxFind (toolbox : List (String × Tool)) (tool_name : Obj) :
    Option Tool :=
  match pyStrVal tool_name with
  | some s =>
    match toolbox.find? (fun p => p.1 == s) with
    | some p => some p.2
    | none => none
  | none => none

/-- Failures of `execute_tool_call`: the unknown-tool `AgentExecutionError`
(its message lists the valid tool names) or a wrapped exception from the
tool call (original message plus the tool's rendered description). -/
inductive ExecErr where
  | unknownTool (tool_name : Obj) (valid : List String)
  | raised (msg : String) (description : String)

/-- The message of an `ExecErr`, rendered as the source renders it. -/
def renderExecErr : ExecErr → String
  | .unknownTool tn valid =>
    "Error: unknown tool " ++ pyStr tn ++ ", should be instead one of [" ++
      joinComma (valid.map pyQuote) ++ "]."
  | .raised msg desc =>
    "Error in tool call execution: " ++ msg ++
      "\nYou should only use this tool with a correct input.\n" ++
      "As a reminder, this tool" ++ "\x27" ++
      "s description is the following:\n" ++ desc

/-- State substitution: each argument value that is a string naming an
existing State variable is replaced by the stored value. -/
def substituteState (state : List (String × Obj))
    (kvs : List (String × Obj)) : List (String × Obj) :=
  kvs.map (fun p =>
    match pyStrVal p.2 with
    | some s => (p.1, (alistLookup state s).getD p.2)
    | none => p)

/-- `Agent.execute_tool_call`: validate the tool name, substitute state
references, invoke the tool, and wrap any exception.  Arguments that are
neither a string nor a dict make `arguments.items()` raise an
`AttributeError` inside the `try`, which the source wraps like any other
tool failure. -/
def execute_tool_call (toolbox : List (String × Tool))
    (state : List (String × Obj)) (tool_name : Obj) (arguments : Obj) :
    Except ExecErr Obj :=
  match toolboxFind toolbox tool_name with
  | none => .error (.unknownTool tool_name (toolbox.map (·.1)))
  | some tool =>
    match pyStrVal arguments with
    | some s =>
      match tool.run (.positional s) with
      | .ok v => .ok v
      | .error e => .error (.raised e tool.description)
    | none =>
      match arguments with
      | .odict kvs =>
        match tool.run (.named (substituteState state kvs)) with
        | .ok v => .ok v
        | .error e => .error (.raised e tool.description)
      | other =>
        .error (.raised
          (pyQuote (pyTypeName other) ++ " object has no attribute " ++
            pyQuote "items") tool.description)

/- ### The `final_answer` pseudo-tool branch (`ReactJsonAgent.step`,
lines 982-995) -/

/-- Resolve the recorded final answer from the parsed arguments: a dict with
an `answer` key resolves a string answer through State when it names a
State variable; a dict without the key, or a non-dict argument, is recorded
verbatim. -/
def resolve_final_answer (state : List (String × Obj)) (arguments : Obj) :
    Obj :=
  match arguments with
  | .odict kvs =>
    match alistLookup kvs "answer" with
    | some answer =>
      match pyStrVal answer with
      | some s => (alistLookup state s).getD answer
      | none => answer
    | none => .odict kvs
  | other => other

/- ### Memory builder (`Agent.write_inner_memory_from_logs`, lines 401-460) -/

/-- The retry guidance appended after an error in a tool-response message. -/
def retryGuidance : String :=
  "\nNow let" ++ "\x27" ++
  "s retry: take care not to repeat previous errors! " ++
  "If you have retried several times, try a completely different approach.\n"

/-- Python `str` of a tool-call record
(`{"tool_name": ..., "tool_arguments": ...}`). -/
def renderToolCall (tc : ToolCallRec) : String :=
  "\x7b" ++ "\x27" ++ "tool_name" ++ "\x27" ++ ": " ++ pyRepr tc.tool_name ++
  ", " ++ "\x27" ++ "tool_arguments" ++ "\x27" ++ ": " ++
  pyRepr tc.tool_arguments ++ "\x7d"

/-- The at-most-one tool-response message of a step entry: from `error`
(with retry guidance appended), or else from `observation`. -/
def stepToolResponse (i : Nat) (e : LogEntry) : List Message :=
  match e.error with
  | some err =>
    [⟨.toolResponse, "[OUTPUT OF STEP " ++ toString i ++ "] Error: " ++
      err.message ++ retryGuidance⟩]
  | none =>
    match e.observation with
    | some obs =>
      [⟨.toolResponse, "[OUTPUT OF STEP " ++ toString i ++
        "] Observation:\n" ++ obs⟩]
    | none => []

/-- The messages contributed by step entry `i` (the source's loop body over
`self.logs[1:]`), in source order. -/
def memoryStepMessages (i : Nat) (summary_mode : Bool) (e : LogEntry) :
    List Message :=
  (match e.llm_output with
   | some o => if summary_mode then [] else [⟨.assistant, pyStrip o⟩]
   | none => []) ++
  (match e.facts with
   | some f => [⟨.assistant, "[FACTS LIST]:\n" ++ pyStrip f⟩]
   | none => []) ++
  (match e.plan with
   | some p => if summary_mode then [] else [⟨.assistant, "[PLAN]:\n" ++ pyStrip p⟩]
   | none => []) ++
  (match e.tool_call with
   | some tc =>
     if summary_mode then
       [⟨.assistant, "[STEP " ++ toString i ++ " TOOL CALL]: " ++
         pyStrip (renderToolCall tc)⟩]
     else []
   | none => []) ++
  (match e.task with
   | some t => [⟨.user, "New task:\n" ++ t⟩]
   | none => []) ++
  stepToolResponse i e

/-- The leading messages produced from entry 0: a system message plus the
task user message, with the system message demoted to a user message (and
the tool-description placeholder removed) for model families without a
system role (`is_mistral`), and dropped entirely in summary mode. -/
def memoryHeader (logs : List LogEntry) (summary_mode : Bool)
    (is_mistral : Bool) : List Message :=
  let sp := ((logs.headD emptyEntry).system_prompt).getD ""
  let tk := ((logs.headD emptyEntry).task).getD ""
  let prompt_message : Message :=
    if is_mistral then ⟨.user, pyReplace sp "<<tool_descriptions>>" ""⟩
    else ⟨.system, sp⟩
  let task_message : Message := ⟨.user, "Task: " ++ tk⟩
  if summary_mode then [task_message] else [prompt_message, task_message]

/-- `Agent.write_inner_memory_from_logs`: entry-0 header followed by the
per-step messages of `logs[1:]` in order (the source's enumerate index). -/
def write_inner_memory_from_logs (logs : List LogEntry)
    (summary_mode : Bool) (is_mistral : Bool) : List Message :=
  memoryHeader logs summary_mode is_mistral ++
    ((logs.drop 1).enum.map
      (fun p => memoryStepMessages p.1 summary_mode p.2)).flatten

/- ### One ReAct step (`ReactJsonAgent.step`, lines 942-1015) -/

/-- The outcome of one modelled `ReactJsonAgent.step` invocation: the log
entry it appended (with every field it set), the updated State, the
`AgentError` it raised (if any; the run loop catches it and patches the
entry), and whether a tool was dispatched through the executor. -/
structure JsonStepResult where
  entry : LogEntry
  state : List (String × Obj)
  raised : Option AgentErrorE
  toolInvoked : Bool

/-- The State key under which a non-text observation is stored. -/
def observationName : Obj → String
  | .oimage _ => "image.png"
  | .oaudio _ => "audio.mp3"
  | _ => "object.object"

/-- `ReactJsonAgent.step`, given the engine's response for this step (an
oracle: the generated text or the engine exception's message): append an
entry holding the memory snapshot, record the LLM output, extract and parse
the action, then either resolve a final answer or execute the tool and
record the observation (storing non-text results in State). -/
def jsonStep (engineResult : Except String String)
    (toolbox : List (String × Tool)) (state : List (String × Obj))
    (memory : List Message) : JsonStepResult :=
  let entry0 : LogEntry := { agent_memory := some memory }
  match engineResult with
  | .error e =>
    ⟨entry0, state,
      some ⟨.generation, "Error in generating llm output: " ++ e ++ "."⟩,
      false⟩
  | .ok llm_output =>
    let entry1 := { entry0 with llm_output := some llm_output }
    match extract_action llm_output "Action:" with
    | .error msg => ⟨entry1, state, some ⟨.parsing, msg⟩, false⟩
    | .ok (rationale, action) =>
      match parse_json_tool_call action with
      | .error _ =>
        ⟨entry1, state,
          some ⟨.parsing, "Could not parse the given action."⟩, false⟩
      | .ok (tool_name, arguments) =>
        let entry2 := { entry1 with
          rationale := some rationale,
          tool_call := some ⟨tool_name, arguments⟩ }
        if pyStrVal tool_name == some "final_answer" then
          let answer := resolve_final_answer state arguments
          ⟨{ entry2 with final_answer := some answer }, state, none, false⟩
        else
          match execute_tool_call toolbox state tool_name arguments with
          | .error e =>
            ⟨entry2, state, some ⟨.execution, renderExecErr e⟩, true⟩
          | .ok observation =>
            match observation with
            | .otext s =>
              ⟨{ entry2 with observation := some (pyStrip s) }, state, none,
                true⟩
            | other =>
              let nm := observationName other
              let info := "Stored " ++ pyQuote nm ++ " in memory."
              ⟨{ entry2 with observation := some info },
                alistInsert state nm other, none, true⟩

/- ### Run loop (`ReactAgent.direct_run`, lines 772-807, and
`ReactAgent.provide_final_answer`, lines 677-712) -/

/-- The abstract outcome of one step, as an oracle indexed by the iteration
number: the entry it appended and the `AgentError` it raised, if any.  All
three concrete `step` implementations fit this shape; `jsonStepWF` below
grounds it for the modelled `ReactJsonAgent.step`. -/
structure StepOut where
  entry : LogEntry
  raised : Option AgentErrorE

/-- A step behaves like the source's `step` methods: it never writes the
`error` field itself, it never raises after recording a final answer, and
it never raises `AgentMaxIterationsError`. -/
def WFStep (so : StepOut) : Prop :=
  so.entry.error = none ∧
  (so.raised.isSome → so.entry.final_answer = none) ∧
  (∀ e, so.raised = some e → e.kind ≠ ErrKind.maxIterations)

/-- Python `final_answer is None`. -/
def Obj.isNoneObj : Obj → Bool
  | .onone => true
  | _ => false

/-- The run-loop state: the log list, the Python `final_answer` variable
(`None` = `Obj.onone`), and the completed-iteration counter. -/
structure LoopState where
  logs : List LogEntry
  fa : Obj
  iteration : Nat

/-- The `logs[-1]["error"] = e` patch applied by the run loop's `except`
handler. -/
def patchError (e : LogEntry) (err : AgentErrorE) : LogEntry :=
  { e with error := some err }

/-- One planning log entry (`planning_step` appends
`{"plan": ..., "facts": ...}`); the texts are engine outputs, supplied by
an oracle indexed by the iteration. -/
def planEntry (p : String × String) : LogEntry :=
  { plan := some p.1, facts := some p.2 }

/-- The `while final_answer is None and iteration < max_iterations` loop of
`direct_run`, with the remaining iteration budget as fuel.  Each pass runs
the planning step when the interval divides the iteration count (the
source would raise `ZeroDivisionError` for interval 0; theorems assume a
positive interval), then the step; an `AgentError` is recorded into the
appended entry and the loop continues. -/
def loopFrom (stepf : Nat → StepOut) (planf : Nat → String × String)
    (planInterval : Option Nat) : Nat → LoopState → LoopState
  | 0, s => s
  | fuel + 1, s =>
    if s.fa.isNoneObj then
      let logs1 :=
        match planInterval with
        | some k =>
          if s.iteration % k == 0 then s.logs ++ [planEntry (planf s.iteration)]
          else s.logs
        | none => s.logs
      let so := stepf s.iteration
      match so.raised with
      | some e =>
        loopFrom stepf planf planInterval fuel
          ⟨logs1 ++ [patchError so.entry e], s.fa, s.iteration + 1⟩
      | none =>
        let fa' :=
          match so.entry.final_answer with
          | some v => v
          | none => s.fa
        loopFrom stepf planf planInterval fuel
          ⟨logs1 ++ [so.entry], fa', s.iteration + 1⟩
    else s

/-- `ReactAgent.provide_final_answer`: one recovery engine call on the full
memory; an engine exception is caught and an error string returned in its
place, so the result is always a string. -/
def provide_final_answer (recovery : Except String String) : String :=
  match recovery with
  | .ok s => s
  | .error e => "Error in generating final llm output: " ++ e ++ "."

/-- The exhaustion error appended after the loop. -/
def maxIterError : AgentErrorE :=
  ⟨.maxIterations, "Reached max iterations."⟩

/-- The result of `direct_run`: the final log list, the returned
`final_answer` value, and how many recovery calls (`provide_final_answer`
invocations, one engine call each) were made. -/
structure RunResult where
  logs : List LogEntry
  final_answer : Obj
  recovery_calls : Nat

/-- Entry 0 appended by `initialize_for_run`. -/
def initEntry (sp task : String) : LogEntry :=
  { system_prompt := some sp, task := some task }

/-- `ReactAgent.direct_run`: run the loop from entry 0; on exhaustion
without a final answer, append a `MaxIterationsError` entry, make exactly
one recovery call, and record its (always non-`None`) result as the forced
final answer. -/
def direct_run (maxIter : Nat) (planInterval : Option Nat)
    (stepf : Nat → StepOut) (planf : Nat → String × String)
    (recovery : Except String String) (sp task : String) : RunResult :=
  let s0 : LoopState := ⟨[initEntry sp task], .onone, 0⟩
  let s := loopFrom stepf planf planInterval maxIter s0
  if s.fa.isNoneObj && (s.iteration == maxIter) then
    let fa := provide_final_answer recovery
    { logs := s.logs ++
        [{ error := some maxIterError, final_answer := some (.ostr fa) }],
      final_answer := .ostr fa,
      recovery_calls := 1 }
  else
    { logs := s.logs, final_answer := s.fa, recovery_calls := 0 }

/- ### Derived notions used by the theorems -/

/-- Whether an `Except` succeeded. -/
def isOkB {ε α : Type} : Except ε α → Bool
  | .ok _ => true
  | .error _ => false

/-- A step oracle never successfully producing a final answer: when it does
not raise, the entry's `final_answer` key is absent or holds `None`
(either way the loop's `while final_answer is None` guard keeps looping). -/
def NoFinalStep (so : StepOut) : Prop :=
  so.raised = none →
    (so.entry.final_answer = none ∨ so.entry.final_answer = some Obj.onone)

/-- The closed entry iteration `i` leaves in the log: the step's entry,
patched with the raised error when the step failed. -/
def stepEntryOf (stepf : Nat → StepOut) (i : Nat) : LogEntry :=
  match (stepf i).raised with
  | some e => patchError (stepf i).entry e
  | none => (stepf i).entry

/-- The iteration numbers `start, start+1, …, start+n-1`. -/
def iterRange (start : Nat) : Nat → List Nat
  | 0 => []
  | n + 1 => start :: iterRange (start + 1) n

/-- Number of planning entries appended during the first `i` iterations. -/
def planningCount (planInterval : Option Nat) (i : Nat) : Nat :=
  match planInterval with
  | none => 0
  | some k => (List.range i).countP (fun j => j % k == 0)

/-- An entry never carries both a (caught) error and a final answer. -/
def EntryOK (e : LogEntry) : Prop :=
  ¬(e.error.isSome = true ∧ e.final_answer.isSome = true)

/-- The fallback entry appended on exhaustion. -/
def fallbackEntry (recovery : Except String String) : LogEntry :=
  { error := some maxIterError,
    final_answer := some (.ostr (provide_final_answer recovery)) }

/- ### Concrete fixtures for witnesses and counterexamples -/

/-- A step that always raises a parsing error (a parser that always
fails). -/
def failingStep : StepOut :=
  ⟨{ agent_memory := some [] }, some ⟨.parsing, "could not parse"⟩⟩

/-- A plan oracle with fixed texts. -/
def constPlan : Nat → String × String := fun _ => ("PLAN", "FACTS")

/-- A tool that reports the arguments it was invoked with. -/
def probeTool : Tool where
  description := "probe tool description"
  run := fun a =>
    match a with
    | .positional s => .ok (.ostr s)
    | .named kvs => .ok (.odict kvs)

/-- A tool that always raises. -/
def throwingTool : Tool where
  description := "throwing tool description"
  run := fun _ => .error "tool blew up"

/- ## Theorems -/

/-- C8 counterexample: on an input with no fenced block, `parse_code_blob`
fails with its fixed diagnostic, and that diagnostic does not contain
(echo) the original text. -/
theorem parse_code_blob_no_echo :
    parse_code_blob "where is my fenced block" = .error codeBlobErrMsg ∧
    pyIn "where is my fenced block" codeBlobErrMsg = false :=
  ⟨rfl, rfl⟩

/-- C8 (amended): the fenced-block parser returns the first fenced code
block's inner text with leading and trailing whitespace trimmed — a
```py fence around `print(1)` yields exactly `print(1)` — and every input
with no fenced block fails with a `ParseError` whose fixed diagnostic
interpolates the caught exception and the regex pattern (it does not echo
the original text). -/
theorem parse_code_blob_spec :
    parse_code_blob "Thoughts\nCode:\n```py\nprint(1)\n```<end_action>" =
      .ok "print(1)" ∧
    parse_code_blob "```py\n  print(1)  \n```" = .ok "print(1)" ∧
    (∀ s inner, searchFence s.data = some inner →
      parse_code_blob s = .ok (String.mk (pyStripL inner))) ∧
    (∀ s, searchFence s.data = none →
      parse_code_blob s = .error codeBlobErrMsg) := by
  refine ⟨rfl, rfl, ?_, ?_⟩
  · intro s inner h
    simp [parse_code_blob, h]
  · intro s h
    simp [parse_code_blob, h]

/-- C8 witness: the no-fence branch of `parse_code_blob_spec` at a concrete
input. -/
theorem parse_code_blob_spec_witness :
    searchFence "abc".data = none ∧
    parse_code_blob "abc" = .error codeBlobErrMsg :=
  ⟨rfl, parse_code_blob_spec.2.2.2 "abc" rfl⟩

/-- C3 counterexample: the structured-call parser (`parse_json_tool_call`)
on the spec's example input does not yield `(search, \x7bquery: x\x7d)`:
the first-brace/last-brace span is `\x7b"query": "x"\x7d`, which lacks an
`action` key, so it fails with the missing-keys `ParseError`. -/
theorem parse_json_tool_call_example_fails :
    parse_json_tool_call "Action: search\nAction input: \x7b\"query\": \"x\"\x7d" =
      .error (.missingKeys ["action", "action_input"]
        (.odict [("query", .ostr "x")])) ∧
    isOkB (parse_json_tool_call
      "Action: search\nAction input: \x7b\"query\": \"x\"\x7d") = false :=
  ⟨rfl, rfl⟩

/-- C3 (amended): the example input `Action: search\nAction input:
\x7b"query": "x"\x7d` is the free-text parser's format and yields tool name
`search` with argument mapping `\x7bquery: x\x7d` there; the structured-call
parser yields that result for a blob with `action`/`action_input` keys, and
for every input whose extracted key/value block lacks an `action` key it
fails with a `ParseError` naming `action` among the missing keys, while
`action_input` is optional (its absence yields a `None` argument, not an
error). -/
theorem parse_json_tool_call_spec :
    parse_text_tool_call "Action: search\nAction input: \x7b\"query\": \"x\"\x7d" =
      .ok ("search", .odict [("query", .ostr "x")]) ∧
    parse_json_tool_call
        "\x7b\"action\": \"search\", \"action_input\": \x7b\"query\": \"x\"\x7d\x7d" =
      .ok (.ostr "search", .odict [("query", .ostr "x")]) ∧
    (∀ s v, parse_json_blob (pyReplace (pyReplace s "```json" "") "```" "") = .ok v →
      pyHasKey v "action" = false →
      parse_json_tool_call s = .error (.missingKeys
        (["action", "action_input"].filter (fun k => !(pyHasKey v k))) v) ∧
      "action" ∈ ["action", "action_input"].filter (fun k => !(pyHasKey v k))) ∧
    (∀ s v, parse_json_blob (pyReplace (pyReplace s "```json" "") "```" "") = .ok v →
      pyHasKey v "action" = true → pyHasKey v "action_input" = false →
      parse_json_tool_call s = .ok (pyGetKey v "action", .onone)) := by
  refine ⟨rfl, rfl, ?_, ?_⟩
  · intro s v h hac
    constructor
    · simp [parse_json_tool_call, h, hac]
    · simp [hac]
  · intro s v h hac hai
    simp [parse_json_tool_call, h, hac, hai]

/-- C3 witness: the missing-key branch of `parse_json_tool_call_spec` at
the concrete example input. -/
theorem parse_json_tool_call_spec_witness :
    parse_json_blob
        (pyReplace (pyReplace "Action: search\nAction input: \x7b\"query\": \"x\"\x7d"
          "```json" "") "```" "") = .ok (.odict [("query", .ostr "x")]) ∧
    pyHasKey (.odict [("query", .ostr "x")]) "action" = false ∧
    parse_json_tool_call "Action: search\nAction input: \x7b\"query\": \"x\"\x7d" =
      .error (.missingKeys ["action", "action_input"]
        (.odict [("query", .ostr "x")])) :=
  ⟨rfl, rfl, by
    have h := (parse_json_tool_call_spec.2.2.1
      "Action: search\nAction input: \x7b\"query\": \"x\"\x7d"
      (.odict [("query", .ostr "x")]) rfl rfl).1
    simpa using h⟩

/-- C9: the free-text parser discards everything after `Observation:`,
splits on `Action:`, then splits the remainder on `Action input:` into a
tool name and either a literal string or a nested structured-call block,
and fails with a `ParseError` whenever the required `Action input:` marker
is missing (the two-way unpack fails). -/
theorem parse_text_tool_call_spec :
    (∀ text, (pySplitOn (actionTrim (obsTrim text)) "Action input:").length ≠ 2 →
      parse_text_tool_call text = .error .splitErr) ∧
    (∀ text tn ti, pySplitOn (actionTrim (obsTrim text)) "Action input:" = [tn, ti] →
      pyIn "\x7b" ti = false →
      parse_text_tool_call text =
        .ok (procToolName tn, .ostr (pyReplace (pyStrip ti) "\"" ""))) ∧
    (∀ text tn ti v, pySplitOn (actionTrim (obsTrim text)) "Action input:" = [tn, ti] →
      pyIn "\x7b" ti = true → parse_json_blob ti = .ok v →
      parse_text_tool_call text = .ok (procToolName tn, v)) ∧
    (∀ text tn ti e, pySplitOn (actionTrim (obsTrim text)) "Action input:" = [tn, ti] →
      pyIn "\x7b" ti = true → parse_json_blob ti = .error e →
      parse_text_tool_call text = .error (.jsonErr e)) ∧
    parse_text_tool_call
        "Thought: go\nAction: calculator\nAction input: 2+2\nObservation: 4" =
      .ok ("calculator", .ostr "2+2") ∧
    parse_text_tool_call "no markers here" = .error .splitErr := by
  refine ⟨?_, ?_, ?_, ?_, rfl, rfl⟩
  · intro text h
    rcases hl : pySplitOn (actionTrim (obsTrim text)) "Action input:" with
      _ | ⟨a, _ | ⟨b, _ | ⟨c, rest⟩⟩⟩ <;>
      simp [parse_text_tool_call, hl] at h ⊢
  · intro text tn ti hl hb
    simp [parse_text_tool_call, hl, hb]
  · intro text tn ti v hl hb hj
    simp [parse_text_tool_call, hl, hb, hj]
  · intro text tn ti e hl hb hj
    simp [parse_text_tool_call, hl, hb, hj]

/-- C9 witness: the missing-marker branch of `parse_text_tool_call_spec` at
a concrete input. -/
theorem parse_text_tool_call_spec_witness :
    (pySplitOn (actionTrim (obsTrim "hello")) "Action input:").length ≠ 2 ∧
    parse_text_tool_call "hello" = .error .splitErr :=
  ⟨by decide, parse_text_tool_call_spec.1 "hello" (by decide)⟩

/-- C4: `execute_tool_call` fails with an execution error whose payload
lists the valid tool names when the tool is unknown; a plain-string
argument is passed as the single positional value; mapping arguments have
values that name State variables replaced by the stored values before
invocation (e.g. `image.png` becomes the stored object); and a tool
exception is wrapped with the original message plus the tool's rendered
description. -/
theorem execute_tool_call_spec :
    (∀ tb st tn args, toolboxFind tb tn = none →
      execute_tool_call tb st tn args =
        .error (.unknownTool tn (tb.map Prod.fst))) ∧
    (renderExecErr (.unknownTool (.ostr "foo") ["a", "b"]) =
      "Error: unknown tool foo, should be instead one of " ++
        "[\x27a\x27, \x27b\x27].") ∧
    (∀ tb st tn tool s, toolboxFind tb tn = some tool →
      execute_tool_call tb st tn (.ostr s) =
        (match tool.run (.positional s) with
         | .ok v => .ok v
         | .error e => .error (.raised e tool.description))) ∧
    (∀ tb st tn tool kvs, toolboxFind tb tn = some tool →
      execute_tool_call tb st tn (.odict kvs) =
        (match tool.run (.named (substituteState st kvs)) with
         | .ok v => .ok v
         | .error e => .error (.raised e tool.description))) ∧
    (substituteState [("image.png", .oimage 7)] [("x", .ostr "image.png")] =
      [("x", .oimage 7)]) ∧
    (execute_tool_call [("probe", probeTool)] [("image.png", .oimage 7)]
        (.ostr "probe") (.odict [("x", .ostr "image.png")]) =
      .ok (.odict [("x", .oimage 7)])) ∧
    (execute_tool_call [("boom", throwingTool)] [] (.ostr "boom")
        (.ostr "input") =
      .error (.raised "tool blew up" "throwing tool description")) := by
  refine ⟨?_, rfl, ?_, ?_, rfl, rfl, rfl⟩
  · intro tb st tn args h
    simp [execute_tool_call, h]
  · intro tb st tn tool s h
    simp [execute_tool_call, h, pyStrVal]
  · intro tb st tn tool kvs h
    simp [execute_tool_call, h, pyStrVal]

/-- C4 witness: the unknown-tool branch of `execute_tool_call_spec` on an
empty toolbox. -/
theorem execute_tool_call_spec_witness :
    toolboxFind [] (Obj.ostr "nosuch") = none ∧
    execute_tool_call [] [] (.ostr "nosuch") (.ostr "x") =
      .error (.unknownTool (.ostr "nosuch") []) :=
  ⟨rfl, execute_tool_call_spec.1 [] [] (.ostr "nosuch") (.ostr "x") rfl⟩

/-- The tool-response slot of a step entry is already filtered: both its
possible messages carry the tool-response role. -/
theorem stepToolResponse_filter (i : Nat) (e : LogEntry) :
    (stepToolResponse i e).filter (fun m => m.role == Role.toolResponse) =
      stepToolResponse i e := by
  obtain ⟨sp, tk, lo, ra, tc, ob, er, fa, pl, fc, am⟩ := e
  unfold stepToolResponse
  cases er <;> cases ob <;> simp

/-- Only the tool-response slot of a step entry's messages carries the
tool-response role. -/
theorem memoryStep_filter (i : Nat) (sm : Bool) (e : LogEntry) :
    (memoryStepMessages i sm e).filter (fun m => m.role == Role.toolResponse) =
      stepToolResponse i e := by
  have h := stepToolResponse_filter i e
  obtain ⟨sp, tk, lo, ra, tc, ob, er, fa, pl, fc, am⟩ := e
  unfold memoryStepMessages
  rw [List.filter_append, List.filter_append, List.filter_append,
    List.filter_append, List.filter_append, h]
  cases lo <;> cases fc <;> cases pl <;> cases tc <;> cases tk <;>
    cases sm <;> simp

/-- Tool-response count of one step entry's messages. -/
theorem memoryStep_count (i : Nat) (sm : Bool) (e : LogEntry) :
    (memoryStepMessages i sm e).countP (fun m => m.role == Role.toolResponse) =
      (if e.error.isSome || e.observation.isSome then 1 else 0) := by
  rw [List.countP_eq_length_filter, memoryStep_filter]
  obtain ⟨sp, tk, lo, ra, tc, ob, er, fa, pl, fc, am⟩ := e
  unfold stepToolResponse
  cases er <;> cases ob <;> simp

/-- Tool-response count of the flattened per-step messages. -/
theorem memorySteps_count (l : List LogEntry) (sm : Bool) : ∀ n : Nat,
    (((List.enumFrom n l).map
      (fun p => memoryStepMessages p.1 sm p.2)).flatten).countP
        (fun m => m.role == Role.toolResponse) =
      l.countP (fun e => e.error.isSome || e.observation.isSome) := by
  induction l with
  | nil => intro n; simp
  | cons e rest ih =>
    intro n
    simp only [List.enumFrom, List.map_cons, List.flatten_cons,
      List.countP_append, List.countP_cons, ih, memoryStep_count]
    cases he : (e.error.isSome || e.observation.isSome)
    · simp [he]
    · simp [he]
      omega

/-- The header messages never carry the tool-response role. -/
theorem memoryHeader_count (logs : List LogEntry) (sm im : Bool) :
    (memoryHeader logs sm im).countP (fun m => m.role == Role.toolResponse) =
      0 := by
  unfold memoryHeader
  cases sm <;> cases im <;> simp

/-- C5: for every log and every step entry after entry 0 that carries an
error or an observation, memory building emits exactly one tool-response
message for that entry, from `error` (with retry guidance appended) or else
from `observation` — never both, with `error` taking precedence. -/
theorem memory_tool_response_spec :
    (∀ i e err, e.error = some err →
      stepToolResponse i e =
        [⟨.toolResponse, "[OUTPUT OF STEP " ++ toString i ++ "] Error: " ++
          err.message ++ retryGuidance⟩]) ∧
    (∀ i e obs, e.error = none → e.observation = some obs →
      stepToolResponse i e =
        [⟨.toolResponse, "[OUTPUT OF STEP " ++ toString i ++
          "] Observation:\n" ++ obs⟩]) ∧
    (∀ i sm e,
      (memoryStepMessages i sm e).filter
        (fun m => m.role == Role.toolResponse) = stepToolResponse i e) ∧
    (∀ i e, e.error.isSome = true ∨ e.observation.isSome = true →
      (stepToolResponse i e).length = 1) ∧
    (∀ logs sm im,
      (write_inner_memory_from_logs logs sm im).countP
        (fun m => m.role == Role.toolResponse) =
      (logs.drop 1).countP
        (fun e => e.error.isSome || e.observation.isSome)) := by
  refine ⟨?_, ?_, memoryStep_filter, ?_, ?_⟩
  · intro i e err h
    unfold stepToolResponse
    rw [h]
  · intro i e obs h1 h2
    unfold stepToolResponse
    rw [h1, h2]
  · intro i e h
    obtain ⟨sp, tk, lo, ra, tc, ob, er, fa, pl, fc, am⟩ := e
    unfold stepToolResponse
    rcases er with _ | er <;> rcases ob with _ | ob <;> simp_all
  · intro logs sm im
    unfold write_inner_memory_from_logs
    rw [List.countP_append, memoryHeader_count, List.enum,
      memorySteps_count]
    omega

/-- C5 witness: the error branch of `memory_tool_response_spec` at a
concrete entry. -/
theorem memory_tool_response_spec_witness :
    ({ error := some ⟨.parsing, "bad"⟩ : LogEntry }).error =
      some ⟨.parsing, "bad"⟩ ∧
    stepToolResponse 0 { error := some ⟨.parsing, "bad"⟩ } =
      [⟨.toolResponse, "[OUTPUT OF STEP " ++ toString 0 ++ "] Error: " ++
        "bad" ++ retryGuidance⟩] :=
  ⟨rfl, memory_tool_response_spec.1 0 { error := some ⟨.parsing, "bad"⟩ }
    ⟨.parsing, "bad"⟩ rfl⟩

/-- C6 counterexample: in summary mode entry 0 yields no system message at
all (only the task user message), and with the no-system-role flag the two
leading messages remain two separate user messages rather than collapsing
into a single one. -/
theorem memory_header_modes_cex :
    write_inner_memory_from_logs [initEntry "SP" "T"] true false =
      [⟨.user, "Task: T"⟩] ∧
    write_inner_memory_from_logs [initEntry "SP" "T"] false true =
      [⟨.user, "SP"⟩, ⟨.user, "Task: T"⟩] ∧
    (write_inner_memory_from_logs [initEntry "SP" "T"] false true).length ≠ 1 :=
  ⟨rfl, rfl, by decide⟩

/-- C6 (amended): in non-summary mode entry 0 renders as a system message
holding the system prompt followed by a user message holding the task
text; with the no-system-role flag the system message is demoted to a user
message (with the tool-descriptions placeholder removed) still followed by
the separate task user message; in summary mode only the task user message
is emitted. -/
theorem memory_header_modes :
    ∀ e0 rest sp tk, e0.system_prompt = some sp → e0.task = some tk →
    ((write_inner_memory_from_logs (e0 :: rest) false false).take 2 =
      [⟨.system, sp⟩, ⟨.user, "Task: " ++ tk⟩]) ∧
    ((write_inner_memory_from_logs (e0 :: rest) false true).take 2 =
      [⟨.user, pyReplace sp "<<tool_descriptions>>" ""⟩,
       ⟨.user, "Task: " ++ tk⟩]) ∧
    ((write_inner_memory_from_logs (e0 :: rest) true false).take 1 =
      [⟨.user, "Task: " ++ tk⟩]) ∧
    ((write_inner_memory_from_logs (e0 :: rest) true true).take 1 =
      [⟨.user, "Task: " ++ tk⟩]) := by
  intro e0 rest sp tk h1 h2
  refine ⟨?_, ?_, ?_, ?_⟩ <;>
    simp [write_inner_memory_from_logs, memoryHeader, h1, h2]

/-- C6 witness: `memory_header_modes` at a concrete log. -/
theorem memory_header_modes_witness :
    (initEntry "SP" "T").system_prompt = some "SP" ∧
    (initEntry "SP" "T").task = some "T" ∧
    (write_inner_memory_from_logs [initEntry "SP" "T"] false false).take 2 =
      [⟨.system, "SP"⟩, ⟨.user, "Task: T"⟩] :=
  ⟨rfl, rfl, (memory_header_modes (initEntry "SP" "T") [] "SP" "T" rfl rfl).1⟩

/-- C10: when the parsed action names the `final_answer` pseudo-tool, a
mapping argument whose `answer` value is a string naming an existing State
variable records the stored State value as the final answer; a mapping
without the `answer` key, or a non-mapping argument, is recorded verbatim;
and no tool is invoked. -/
theorem final_answer_resolution_spec :
    (∀ st kvs v s, alistLookup kvs "answer" = some (.ostr s) →
      alistLookup st s = some v →
      resolve_final_answer st (.odict kvs) = v) ∧
    (∀ st kvs s, alistLookup kvs "answer" = some (.ostr s) →
      alistLookup st s = none →
      resolve_final_answer st (.odict kvs) = .ostr s) ∧
    (∀ st kvs, alistLookup kvs "answer" = none →
      resolve_final_answer st (.odict kvs) = .odict kvs) ∧
    (∀ st s, resolve_final_answer st (.ostr s) = .ostr s) ∧
    (∀ st, resolve_final_answer st .onone = .onone) ∧
    (∀ out tb st mem r a tn args,
      extract_action out "Action:" = .ok (r, a) →
      parse_json_tool_call a = .ok (tn, args) →
      pyStrVal tn = some "final_answer" →
      (jsonStep (.ok out) tb st mem).entry.final_answer =
        some (resolve_final_answer st args) ∧
      (jsonStep (.ok out) tb st mem).toolInvoked = false ∧
      (jsonStep (.ok out) tb st mem).raised = none) := by
  refine ⟨?_, ?_, ?_, fun st s => rfl, fun st => rfl, ?_⟩
  · intro st kvs v s h1 h2
    simp [resolve_final_answer, h1, h2, pyStrVal]
  · intro st kvs s h1 h2
    simp [resolve_final_answer, h1, h2, pyStrVal]
  · intro st kvs h
    simp [resolve_final_answer, h]
  · intro out tb st mem r a tn args h1 h2 h3
    refine ⟨?_, ?_, ?_⟩ <;> simp [jsonStep, h1, h2, h3]

/-- C10 witness: a full concrete step in which the model answers with the
name of a stored image; the recorded final answer is the stored object. -/
theorem final_answer_resolution_spec_witness :
    resolve_final_answer [("image.png", Obj.oimage 3)]
        (.odict [("answer", .ostr "image.png")]) = .oimage 3 ∧
    (jsonStep
      (.ok "Action: \x7b\"action\": \"final_answer\", \"action_input\": \x7b\"answer\": \"image.png\"\x7d\x7d")
      [] [("image.png", Obj.oimage 3)] []).entry.final_answer =
        some (.oimage 3) ∧
    (jsonStep
      (.ok "Action: \x7b\"action\": \"final_answer\", \"action_input\": \x7b\"answer\": \"image.png\"\x7d\x7d")
      [] [("image.png", Obj.oimage 3)] []).toolInvoked = false := by
  have h := final_answer_resolution_spec.2.2.2.2.2
    "Action: \x7b\"action\": \"final_answer\", \"action_input\": \x7b\"answer\": \"image.png\"\x7d\x7d"
    [] [("image.png", Obj.oimage 3)] []
    "" " \x7b\"action\": \"final_answer\", \"action_input\": \x7b\"answer\": \"image.png\"\x7d\x7d"
    (.ostr "final_answer") (.odict [("answer", .ostr "image.png")])
    rfl rfl rfl
  exact ⟨rfl, h.1.trans rfl, h.2.1⟩

/-- `iterRange` has the stated length. -/
theorem iterRange_length (n : Nat) : ∀ start, (iterRange start n).length = n := by
  induction n with
  | zero => intro start; rfl
  | succ m ih => intro start; simp [iterRange, ih]

/-- Run-loop unfolding when no step ever successfully produces a final
answer and no planning interval is set: each of the `fuel` remaining
iterations appends exactly its (possibly error-patched) step entry, the
`final_answer` variable stays `None`, and the iteration counter advances by
`fuel`. -/
theorem loopFrom_noFinal (stepf : Nat → StepOut) (planf : Nat → String × String)
    (h : ∀ i, NoFinalStep (stepf i)) :
    ∀ fuel it logs,
      loopFrom stepf planf none fuel ⟨logs, .onone, it⟩ =
        ⟨logs ++ (iterRange it fuel).map (stepEntryOf stepf), .onone,
          it + fuel⟩ := by
  intro fuel
  induction fuel with
  | zero => intro it logs; simp [loopFrom, iterRange]
  | succ n ih =>
    intro it logs
    rcases hr : (stepf it).raised with _ | e
    · rcases h it hr with h1 | h1 <;>
      · rw [loopFrom.eq_def]
        simp only [Obj.isNoneObj, if_true, hr, h1]
        rw [ih]
        simp [iterRange, stepEntryOf, hr, h1]
        omega
    · rw [loopFrom.eq_def]
      simp only [Obj.isNoneObj, if_true, hr]
      rw [ih]
      simp [iterRange, stepEntryOf, hr]
      omega

/-- The `final_answer` variable stays `None` and the iteration counter
advances by the full fuel when no step ever successfully produces a final
answer (any planning interval). -/
theorem loopFrom_fa (stepf : Nat → StepOut) (planf : Nat → String × String)
    (pi : Option Nat) (h : ∀ i, NoFinalStep (stepf i)) :
    ∀ fuel logs it,
      (loopFrom stepf planf pi fuel ⟨logs, .onone, it⟩).fa = Obj.onone ∧
      (loopFrom stepf planf pi fuel ⟨logs, .onone, it⟩).iteration =
        it + fuel := by
  intro fuel
  induction fuel with
  | zero => intro logs it; simp [loopFrom]
  | succ n ih =>
    intro logs it
    rcases hr : (stepf it).raised with _ | e
    · rcases h it hr with h1 | h1 <;>
      · rw [loopFrom.eq_def]
        simp only [Obj.isNoneObj, if_true, hr, h1]
        refine ⟨(ih _ (it + 1)).1, ?_⟩
        rw [(ih _ (it + 1)).2]
        omega
    · rw [loopFrom.eq_def]
      simp only [Obj.isNoneObj, if_true, hr]
      refine ⟨(ih _ (it + 1)).1, ?_⟩
      rw [(ih _ (it + 1)).2]
      omega

/-- One planning invocation per iteration divisible by the interval. -/
theorem planningCount_some_succ (k i : Nat) :
    planningCount (some k) (i + 1) =
      planningCount (some k) i + (if i % k == 0 then 1 else 0) := by
  simp only [planningCount, List.range_succ, List.countP_append,
    List.countP_cons, List.countP_nil]
  cases h : (i % k == 0) <;> simp [h]

/-- Every entry of a concatenation is OK when both halves are. -/
theorem entryOK_append (l1 l2 : List LogEntry)
    (h1 : ∀ e ∈ l1, EntryOK e) (h2 : ∀ e ∈ l2, EntryOK e) :
    ∀ e ∈ l1 ++ l2, EntryOK e := by
  intro e he
  rcases List.mem_append.1 he with h | h
  exacts [h1 e h, h2 e h]

/-- Singleton version of `entryOK_append`. -/
theorem entryOK_single (x : LogEntry) (h : EntryOK x) :
    ∀ e ∈ [x], EntryOK e := by
  intro e he
  simp only [List.mem_cons, List.not_mem_nil, or_false] at he
  exact he ▸ h

/-- A planning entry carries neither error nor final answer. -/
theorem planEntry_ok (p : String × String) : EntryOK (planEntry p) := by
  simp [EntryOK, planEntry]

/-- The entry a step leaves behind is OK: an unpatched entry has no error,
and a patched one has no final answer. -/
theorem stepEntry_ok (stepf : Nat → StepOut) (hwf : ∀ i, WFStep (stepf i))
    (it : Nat) :
    EntryOK (stepf it).entry ∧
    (∀ err, (stepf it).raised = some err →
      EntryOK (patchError (stepf it).entry err)) := by
  constructor
  · simp [EntryOK, (hwf it).1]
  · intro err hr
    have hfa2 : (stepf it).entry.final_answer = none :=
      (hwf it).2.1 (by simp [hr])
    simp [EntryOK, patchError, hfa2]

/-- Loop invariant: the log length always equals the completed iteration
count plus one (entry 0) plus one entry per planning invocation, and no
entry ever carries both an error and a final answer, assuming the step
oracle behaves like the source's `step` methods. -/
theorem loopFrom_invariant (stepf : Nat → StepOut)
    (planf : Nat → String × String) (pi : Option Nat)
    (hwf : ∀ i, WFStep (stepf i)) :
    ∀ fuel s,
      s.logs.length = s.iteration + 1 + planningCount pi s.iteration →
      (∀ e ∈ s.logs, EntryOK e) →
      (loopFrom stepf planf pi fuel s).logs.length =
        (loopFrom stepf planf pi fuel s).iteration + 1 +
          planningCount pi (loopFrom stepf planf pi fuel s).iteration ∧
      (∀ e ∈ (loopFrom stepf planf pi fuel s).logs, EntryOK e) := by
  intro fuel
  induction fuel with
  | zero => intro s h1 h2; simpa [loopFrom] using ⟨h1, h2⟩
  | succ n ih =>
    intro s h1 h2
    obtain ⟨logs, fa, it⟩ := s
    simp only at h1 h2
    rw [loopFrom.eq_def]
    cases hfa : fa.isNoneObj
    · simp only [hfa, if_false]
      exact ⟨h1, h2⟩
    · simp only [hfa, if_true]
      rcases stepEntry_ok stepf hwf it with ⟨hokE, hokP⟩
      cases pi with
      | none =>
        rcases hr : (stepf it).raised with _ | err
        · refine ih ⟨logs ++ [(stepf it).entry], _, it + 1⟩ ?_ ?_
          · simp only [planningCount] at h1 ⊢
            simp only [List.length_append, List.length_cons, List.length_nil]
            omega
          · exact entryOK_append _ _ h2 (entryOK_single _ hokE)
        · refine ih ⟨logs ++ [patchError (stepf it).entry err], _, it + 1⟩
            ?_ ?_
          · simp only [planningCount] at h1 ⊢
            simp only [List.length_append, List.length_cons, List.length_nil]
            omega
          · exact entryOK_append _ _ h2 (entryOK_single _ (hokP err hr))
      | some k =>
        cases ht : (it % k == 0) <;> simp only [ht, if_true, if_false] <;>
          rcases hr : (stepf it).raised with _ | err
        · refine ih ⟨logs ++ [(stepf it).entry], _, it + 1⟩ ?_ ?_
          · simp [List.length_append, planningCount_some_succ, ht]
            omega
          · exact entryOK_append _ _ h2 (entryOK_single _ hokE)
        · refine ih ⟨logs ++ [patchError (stepf it).entry err], _, it + 1⟩
            ?_ ?_
          · simp [List.length_append, planningCount_some_succ, ht]
            omega
          · exact entryOK_append _ _ h2 (entryOK_single _ (hokP err hr))
        · refine ih
            ⟨logs ++ [planEntry (planf it)] ++ [(stepf it).entry], _, it + 1⟩
            ?_ ?_
          · simp [List.length_append, planningCount_some_succ, ht]
            omega
          · exact entryOK_append _ _
              (entryOK_append _ _ h2 (entryOK_single _ (planEntry_ok _)))
              (entryOK_single _ hokE)
        · refine ih
            ⟨logs ++ [planEntry (planf it)] ++
              [patchError (stepf it).entry err], _, it + 1⟩ ?_ ?_
          · simp [List.length_append, planningCount_some_succ, ht]
            omega
          · exact entryOK_append _ _
              (entryOK_append _ _ h2 (entryOK_single _ (planEntry_ok _)))
              (entryOK_single _ (hokP err hr))

/-- C1: for every iteration budget N ≥ 1, a direct run with no planning
interval in which no step ever successfully produces a final answer
appends exactly N regular step entries and then exactly one
MaxIterationsError entry, makes exactly one recovery LLM call whose output
is recorded as the fallback entry's final answer, and with entry 0 the log
has length N + 2. -/
theorem direct_run_budget_spec (N : Nat) (_hN : 1 ≤ N) (stepf : Nat → StepOut)
    (planf : Nat → String × String) (recovery : Except String String)
    (sp task : String) (hwf : ∀ i, WFStep (stepf i))
    (hnf : ∀ i, NoFinalStep (stepf i)) :
    (direct_run N none stepf planf recovery sp task).logs =
      initEntry sp task ::
        ((iterRange 0 N).map (stepEntryOf stepf) ++ [fallbackEntry recovery]) ∧
    (direct_run N none stepf planf recovery sp task).logs.length = N + 2 ∧
    (direct_run N none stepf planf recovery sp task).recovery_calls = 1 ∧
    (direct_run N none stepf planf recovery sp task).final_answer =
      .ostr (provide_final_answer recovery) ∧
    (∀ s, recovery = .ok s →
      (direct_run N none stepf planf recovery sp task).final_answer =
        .ostr s ∧
      (fallbackEntry recovery).final_answer = some (.ostr s)) ∧
    (fallbackEntry recovery).error = some maxIterError ∧
    (∀ e ∈ (iterRange 0 N).map (stepEntryOf stepf), ∀ err,
      e.error = some err → err.kind ≠ .maxIterations) := by
  have hloop := loopFrom_noFinal stepf planf hnf N 0 [initEntry sp task]
  have hrun :
      direct_run N none stepf planf recovery sp task =
        { logs := ([initEntry sp task] ++
            (iterRange 0 N).map (stepEntryOf stepf)) ++
            [fallbackEntry recovery],
          final_answer := .ostr (provide_final_answer recovery),
          recovery_calls := 1 } := by
    unfold direct_run
    simp [hloop, Obj.isNoneObj, fallbackEntry]
  refine ⟨?_, ?_, ?_, ?_, ?_, rfl, ?_⟩
  · rw [hrun]; simp
  · rw [hrun]; simp [iterRange_length]
  · rw [hrun]
  · rw [hrun]
  · intro s hs
    subst hs
    exact ⟨by rw [hrun]; rfl, rfl⟩
  · intro e he err herr
    rcases List.mem_map.1 he with ⟨i, _, hi⟩
    subst hi
    unfold stepEntryOf at herr
    rcases hr : (stepf i).raised with _ | e2
    · rw [hr] at herr
      simp only at herr
      rw [(hwf i).1] at herr
      cases herr
    · rw [hr] at herr
      simp only [patchError] at herr
      have := (hwf i).2.2 e2 hr
      cases herr
      exact this

/-- C1 witness: the spec's scenario — budget 2 with a step that always
fails to parse — produces a log of length 4 whose fallback entry records
the recovery call's output `42`. -/
theorem direct_run_budget_spec_witness :
    (direct_run 2 none (fun _ => failingStep) constPlan (.ok "42")
      "SP" "T").logs.length = 4 ∧
    (direct_run 2 none (fun _ => failingStep) constPlan (.ok "42")
      "SP" "T").recovery_calls = 1 ∧
    (direct_run 2 none (fun _ => failingStep) constPlan (.ok "42")
      "SP" "T").final_answer = .ostr "42" ∧
    (fallbackEntry (Except.ok "42")).final_answer = some (.ostr "42") := by
  have hwf : ∀ i : Nat, WFStep ((fun _ => failingStep) i) := by
    intro i
    refine ⟨rfl, fun _ => rfl, ?_⟩
    intro e he
    cases he
    decide
  have hnf : ∀ i : Nat, NoFinalStep ((fun _ => failingStep) i) := by
    intro i h
    cases h
  have h := direct_run_budget_spec 2 (by decide) (fun _ => failingStep)
    constPlan (.ok "42") "SP" "T" hwf hnf
  exact ⟨h.2.1, h.2.2.1, (h.2.2.2.2.1 "42" rfl).1, (h.2.2.2.2.1 "42" rfl).2⟩

/-- C2 counterexample: with planning interval 1 and budget 1, after one
completed iteration the log already holds three entries — entry 0, the
plan/facts entry appended by the planning step, and the step entry — so
`len(logs) = i + 1` fails as soon as a planning interval is set. -/
theorem run_log_invariant_cex :
    (loopFrom (fun _ => failingStep) constPlan (some 1) 1
      ⟨[initEntry "SP" "T"], .onone, 0⟩).iteration = 1 ∧
    (loopFrom (fun _ => failingStep) constPlan (some 1) 1
      ⟨[initEntry "SP" "T"], .onone, 0⟩).logs.length = 3 ∧
    (3 : Nat) ≠ 1 + 1 :=
  ⟨rfl, rfl, by decide⟩

/-- C2 (amended): after i completed iterations the log has length i + 1
plus one additional plan/facts entry per planning invocation (none when no
planning interval is set); at most one of final answer and error is newly
set per iteration — a caught error is recorded into an entry with no final
answer, grounded for the modelled `ReactJsonAgent.step` — except the
forced fallback entry after exhaustion, which carries both the exhaustion
error and the recovered final answer. -/
theorem run_log_invariant (stepf : Nat → StepOut)
    (planf : Nat → String × String) (pi : Option Nat) (sp task : String)
    (hwf : ∀ i, WFStep (stepf i)) (_hpi : ∀ k, pi = some k → 1 ≤ k) :
    (∀ fuel,
      (loopFrom stepf planf pi fuel
        ⟨[initEntry sp task], .onone, 0⟩).logs.length =
      (loopFrom stepf planf pi fuel
        ⟨[initEntry sp task], .onone, 0⟩).iteration + 1 +
        planningCount pi
          (loopFrom stepf planf pi fuel
            ⟨[initEntry sp task], .onone, 0⟩).iteration ∧
      ∀ e ∈ (loopFrom stepf planf pi fuel
        ⟨[initEntry sp task], .onone, 0⟩).logs, EntryOK e) ∧
    (∀ fuel,
      (loopFrom stepf planf none fuel
        ⟨[initEntry sp task], .onone, 0⟩).logs.length =
      (loopFrom stepf planf none fuel
        ⟨[initEntry sp task], .onone, 0⟩).iteration + 1) ∧
    (∀ engineResult tb st mem,
      (jsonStep engineResult tb st mem).entry.error = none ∧
      ((jsonStep engineResult tb st mem).raised.isSome = true →
        (jsonStep engineResult tb st mem).entry.final_answer = none)) ∧
    (∀ N recovery, (∀ i, NoFinalStep (stepf i)) →
      (direct_run N pi stepf planf recovery sp task).logs.getLast? =
        some (fallbackEntry recovery) ∧
      (fallbackEntry recovery).error.isSome = true ∧
      (fallbackEntry recovery).final_answer.isSome = true) := by
  have hinit : ∀ pi2 : Option Nat,
      ([initEntry sp task] : List LogEntry).length = 0 + 1 +
        planningCount pi2 0 := by
    intro pi2
    cases pi2 <;> simp [planningCount]
  have hok0 : ∀ e ∈ [initEntry sp task], EntryOK e :=
    entryOK_single _ (by simp [EntryOK, initEntry])
  refine ⟨?_, ?_, ?_, ?_⟩
  · intro fuel
    exact loopFrom_invariant stepf planf pi hwf fuel
      ⟨[initEntry sp task], .onone, 0⟩ (hinit pi) hok0
  · intro fuel
    have h := loopFrom_invariant stepf planf none hwf fuel
      ⟨[initEntry sp task], .onone, 0⟩ (hinit none) hok0
    simpa [planningCount] using h.1
  · intro engineResult tb st mem
    constructor
    · unfold jsonStep
      rcases engineResult with e | out
      · rfl
      · rcases hea : extract_action out "Action:" with msg | ra
        · simp [hea]
        · obtain ⟨r, a⟩ := ra
          rcases hpj : parse_json_tool_call a with e | ta
          · simp [hea, hpj]
          · obtain ⟨tn, args⟩ := ta
            cases htn : (pyStrVal tn == some "final_answer")
            · rcases hex : execute_tool_call tb st tn args with e | obs
              · simp [hea, hpj, htn, hex]
              · cases obs <;> simp [hea, hpj, htn, hex]
            · simp [hea, hpj, htn]
    · intro hra
      unfold jsonStep at hra ⊢
      rcases engineResult with e | out
      · rfl
      · rcases hea : extract_action out "Action:" with msg | ra
        · simp [hea]
        · obtain ⟨r, a⟩ := ra
          rcases hpj : parse_json_tool_call a with e | ta
          · simp [hea, hpj]
          · obtain ⟨tn, args⟩ := ta
            cases htn : (pyStrVal tn == some "final_answer")
            · rcases hex : execute_tool_call tb st tn args with e | obs
              · simp [hea, hpj, htn, hex]
              · cases obs <;> simp [hea, hpj, htn, hex]
            · simp [hea, hpj, htn] at hra
  · intro N recovery hnf
    have hfa := loopFrom_fa stepf planf pi hnf N [initEntry sp task] 0
    refine ⟨?_, rfl, rfl⟩
    unfold direct_run
    have h1 := hfa.1
    have h2 := hfa.2
    rcases hsplit : loopFrom stepf planf pi N ⟨[initEntry sp task], .onone, 0⟩
      with ⟨logs2, fa2, it2⟩
    rw [hsplit] at h1 h2
    simp only at h1 h2
    subst h1
    subst h2
    simp only [hsplit]
    simp [Obj.isNoneObj, fallbackEntry, List.getLast?_concat]

/-- C2 witness: the no-planning branch of `run_log_invariant` after one
iteration of an always-failing step. -/
theorem run_log_invariant_witness :
    (loopFrom (fun _ => failingStep) constPlan none 1
      ⟨[initEntry "SP" "T"], .onone, 0⟩).logs.length =
    (loopFrom (fun _ => failingStep) constPlan none 1
      ⟨[initEntry "SP" "T"], .onone, 0⟩).iteration + 1 := by
  have hwf : ∀ i : Nat, WFStep ((fun _ => failingStep) i) := by
    intro i
    refine ⟨rfl, fun _ => rfl, ?_⟩
    intro e he
    cases he
    decide
  exact (run_log_invariant (fun _ => failingStep) constPlan none "SP" "T"
    hwf (fun k hk => by cases hk)).2.1 1

/-- C7 counterexample: when the recovery call itself fails, the run does
not end with no final answer — the caught exception is converted into an
error string that is recorded as the final answer. -/
theorem recovery_failure_cex :
    (direct_run 1 none (fun _ => failingStep) constPlan
      (.error "engine down") "SP" "T").final_answer =
      .ostr "Error in generating final llm output: engine down." ∧
    Obj.isNoneObj (direct_run 1 none (fun _ => failingStep) constPlan
      (.error "engine down") "SP" "T").final_answer = false :=
  ⟨rfl, rfl⟩

/-- C7 (amended): after budget exhaustion exactly one recovery call is
made; if that call fails, the run ends with the error string
`Error in generating final llm output: …` recorded as its final answer
(not with no final answer), and the exhaustion error is carried by the
last log entry together with that recorded answer. -/
theorem recovery_failure_spec (N : Nat) (stepf : Nat → StepOut)
    (planf : Nat → String × String) (pi : Option Nat)
    (recovery : Except String String) (err sp task : String)
    (hnf : ∀ i, NoFinalStep (stepf i)) (hrec : recovery = .error err) :
    (direct_run N pi stepf planf recovery sp task).recovery_calls = 1 ∧
    (direct_run N pi stepf planf recovery sp task).final_answer =
      .ostr ("Error in generating final llm output: " ++ err ++ ".") ∧
    Obj.isNoneObj
      (direct_run N pi stepf planf recovery sp task).final_answer = false ∧
    (direct_run N pi stepf planf recovery sp task).logs.getLast? =
      some (fallbackEntry recovery) ∧
    (fallbackEntry recovery).error = some maxIterError ∧
    (fallbackEntry recovery).final_answer =
      some (direct_run N pi stepf planf recovery sp task).final_answer := by
  have hfa := loopFrom_fa stepf planf pi hnf N [initEntry sp task] 0
  have hrun :
      direct_run N pi stepf planf recovery sp task =
        { logs := (loopFrom stepf planf pi N
            ⟨[initEntry sp task], .onone, 0⟩).logs ++
            [fallbackEntry recovery],
          final_answer := .ostr (provide_final_answer recovery),
          recovery_calls := 1 } := by
    unfold direct_run
    have h1 := hfa.1
    have h2 := hfa.2
    rcases hsplit : loopFrom stepf planf pi N ⟨[initEntry sp task], .onone, 0⟩
      with ⟨logs2, fa2, it2⟩
    rw [hsplit] at h1 h2
    simp only at h1 h2
    subst h1
    subst h2
    simp only [hsplit]
    simp [Obj.isNoneObj, fallbackEntry]
  subst hrec
  rw [hrun]
  refine ⟨rfl, rfl, rfl, ?_, rfl, rfl⟩
  simp

/-- C7 witness: `recovery_failure_spec` at budget 1 with an always-failing
step and a failing recovery engine. -/
theorem recovery_failure_spec_witness :
    (direct_run 1 none (fun _ => failingStep) constPlan (.error "boom")
      "SP" "T").recovery_calls = 1 ∧
    (direct_run 1 none (fun _ => failingStep) constPlan (.error "boom")
      "SP" "T").final_answer =
      .ostr ("Error in generating final llm output: " ++ "boom" ++ ".") := by
  have hnf : ∀ i : Nat, NoFinalStep ((fun _ => failingStep) i) := by
    intro i h
    cases h
  have h := recovery_failure_spec 1 (fun _ => failingStep) constPlan none
    (.error "boom") "boom" "SP" "T" hnf rfl
  exact ⟨h.1, h.2.1⟩

end Agents
